import Mathlib

/-!
Verification development for the REKS payslip application
(`streamlit_payslip_generator_python_app.py`).

The file shallowly embeds the computational core of the application:
the monetary coercion `to_float`, the currency formatter `peso`, the
earnings/deductions aggregation, the duplicate-payroll reconciler
`merge_duplicate_payroll`, the payroll upsert `insert_or_update_payroll`,
and the PDF payslip composer `make_payslip_pdf` (as a list of drawing
operations).  Monetary amounts are modelled as exact rationals; dict
cells as a `Value` type covering None, NaN, strings and numbers.
-/

/-- A Python value as it can appear in a payroll dict cell: absent/None,
a float NaN (as pandas produces for empty cells), a string, or a finite
number (ints and floats are both modelled as exact rationals). -/
inductive Value where
  | none
  | nan
  | str (s : String)
  | num (q : ℚ)
deriving DecidableEq

/-- Model of Python `str.strip()`: drop leading and trailing whitespace. -/
def pyStrip (l : List Char) : List Char :=
  ((l.dropWhile Char.isWhitespace).reverse.dropWhile Char.isWhitespace).reverse

/-- Split a character list into its longest digit prefix and the rest. -/
def takeDigits : List Char → List Char × List Char
  | [] => ([], [])
  | c :: cs =>
    if c.isDigit then
      let p := takeDigits cs
      (c :: p.1, p.2)
    else ([], c :: cs)

/-- Value of a list of decimal digit characters, most significant first. -/
def digitsToNat (l : List Char) : Nat :=
  l.foldl (fun a c => 10 * a + (c.toNat - 48)) 0

/-- Modelled fragment of the Python builtin `float(str)`: an optional
sign followed by a decimal numeral with an optional fractional part,
returning the exact rational value.  Other accepted spellings of the
builtin (exponents, `inf`, `nan`, underscores) are modelled as failures;
the source only ever uses a failure to fall back to a default, and no
claim touches those spellings. -/
def parsePyFloat (l : List Char) : Option ℚ :=
  let sgn : ℚ := if l.head? = some '-' then -1 else 1
  let l1 : List Char := if l.head? = some '-' ∨ l.head? = some '+' then l.tail else l
  let p := takeDigits l1
  match p.2 with
  | [] => if p.1.isEmpty then Option.none else some (sgn * (digitsToNat p.1 : ℚ))
  | '.' :: l3 =>
    let f := takeDigits l3
    if f.2.isEmpty && !(p.1.isEmpty && f.1.isEmpty) then
      some (sgn * ((digitsToNat p.1 : ℚ) + (digitsToNat f.1 : ℚ) / (10 : ℚ) ^ f.1.length))
    else Option.none
  | _ => Option.none

/-- Embedding of `to_float` (src lines 124-134): safe numeric coercion.
None and NaN become 0; numbers pass through; a string is stripped of
surrounding whitespace, then of every comma, and parsed, with 0 as the
fallback for the blank string and for parse failures.  The function is
total: no input raises. -/
def to_float (v : Value) : ℚ :=
  match v with
  | .none => 0
  | .nan => 0
  | .num q => q
  | .str s =>
    let cs := (pyStrip s.toList).filter (fun c => c != ',')
    if cs.isEmpty then 0 else (parsePyFloat cs).getD 0

/-- Result of a successful Python `float(x)`: NaN or a finite value. -/
inductive PyNum where
  | nan
  | fin (q : ℚ)
deriving DecidableEq

/-- Model of applying the Python builtin `float(x)` to a cell value:
`float(None)` raises (modelled as failure), a NaN float stays NaN, a
number is returned unchanged, and a string is parsed after stripping
surrounding whitespace (`float(str)` does not remove commas). -/
def pyFloat (v : Value) : Option PyNum :=
  match v with
  | .none => Option.none
  | .nan => some PyNum.nan
  | .num q => some (PyNum.fin q)
  | .str s =>
    match parsePyFloat (pyStrip s.toList) with
    | some q => some (PyNum.fin q)
    | Option.none => Option.none

/-- Round to the nearest integer with ties to even: the rounding of
Python float formatting, applied here to the exact rational value. -/
def roundHalfEven (x : ℚ) : ℤ :=
  let n := ⌊x⌋
  let r := x - (n : ℚ)
  if r < 1/2 then n
  else if 1/2 < r then n + 1
  else if n % 2 = 0 then n else n + 1

/-- Insert a comma after every three characters of a reversed digit
string (so grouping starts from the least significant digit). -/
def commaRev : List Char → List Char
  | a :: b :: c :: rest =>
    match rest with
    | [] => [a, b, c]
    | _ => a :: b :: c :: ',' :: commaRev rest
  | l => l

/-- Comma thousands grouping of the decimal digits of `n`. -/
def commaGroup (n : Nat) : List Char :=
  (commaRev (Nat.toDigits 10 n).reverse).reverse

/-- Exactly two decimal digit characters for a cents value below 100. -/
def pad2 (n : Nat) : List Char :=
  [Char.ofNat (48 + n / 10 % 10), Char.ofNat (48 + n % 10)]

/-- Model of the Python format spec `,.2f` on an exact rational: round
to two decimal places (ties to even), group the integer digits with
commas, always show exactly two fractional digits. -/
def fmtComma2 (q : ℚ) : String :=
  let n := roundHalfEven (q * 100)
  let m := n.natAbs
  let sgn := if n < 0 then "-" else ""
  sgn ++ String.mk (commaGroup (m / 100)) ++ "." ++ String.mk (pad2 (m % 100))

/-- Embedding of `peso` (src lines 117-121): peso-prefixed currency
rendering, with the fixed string for any input on which `float(x)`
raises.  `float` of a NaN succeeds, and formatting a NaN produces
`nan`, so a NaN input renders as the peso sign followed by `nan`. -/
def peso (v : Value) : String :=
  match pyFloat v with
  | Option.none => "₱0.00"
  | some PyNum.nan => "₱nan"
  | some (PyNum.fin q) => "₱" ++ fmtComma2 q

/-- The string ends in a dot followed by exactly two digits. -/
def twoDecimalSuffix (s : String) : Bool :=
  match s.toList.reverse with
  | d2 :: d1 :: '.' :: _ => d1.isDigit && d2.isDigit
  | _ => false

/-- A payroll record as the dict handed to the aggregation and to the
composer: the monetary cells may hold anything a dict lookup can produce
(`Value`), the period endpoints and notes may be absent. -/
structure PayrollRow where
  period_start : Option String
  period_end : Option String
  basic_pay : Value
  overtime_pay : Value
  allowances : Value
  bonus : Value
  sss : Value
  philhealth : Value
  pagibig : Value
  undertime : Value
  late : Value
  other_deductions : Value
  tax : Value
  notes : Option String
deriving DecidableEq

/-- The employee dict as built by `get_employee` (src lines 229-238). -/
structure EmployeeRow where
  emp_id : String
  full_name : String
  position : String
  department : String
deriving DecidableEq

/-- The earnings list of `make_payslip_pdf` (src lines 319-324), in the
fixed display order of the source. -/
def earningsOf (pr : PayrollRow) : List (String × ℚ) :=
  [("Basic Pay", to_float pr.basic_pay),
   ("Overtime Pay", to_float pr.overtime_pay),
   ("Allowances", to_float pr.allowances),
   ("Bonus", to_float pr.bonus)]

/-- The deductions list of `make_payslip_pdf` (src lines 325-333), in
the fixed display order of the source. -/
def deductionsOf (pr : PayrollRow) : List (String × ℚ) :=
  [("SSS", to_float pr.sss),
   ("PhilHealth", to_float pr.philhealth),
   ("Pag-IBIG", to_float pr.pagibig),
   ("Undertime", to_float pr.undertime),
   ("Late", to_float pr.late),
   ("Other Deductions", to_float pr.other_deductions),
   ("Withholding Tax", to_float pr.tax)]

/-- `gross = sum(v for _, v in earnings)` (src line 335); Python `sum`
is a left fold starting at 0. -/
def grossOf (pr : PayrollRow) : ℚ :=
  (earningsOf pr).foldl (fun a x => a + x.2) 0

/-- `total_deductions = sum(v for _, v in deductions)` (src line 336). -/
def totalDeductionsOf (pr : PayrollRow) : ℚ :=
  (deductionsOf pr).foldl (fun a x => a + x.2) 0

/-- `net = gross - total_deductions` (src line 337). -/
def netOf (pr : PayrollRow) : ℚ :=
  grossOf pr - totalDeductionsOf pr

/-- The three summary numbers the source computes (src lines 335-337 and
676-683 compute the same sums from the same field lists). -/
def aggregate (pr : PayrollRow) : ℚ × ℚ × ℚ :=
  (grossOf pr, totalDeductionsOf pr, netOf pr)

-- ---------------- PDF composer ----------------

def COMPANY_NAME : String := "REKS Amusement Com Inc"
def COMPANY_DEPT : String := "Marketing Department"
def COMPANY_ADDRESS : String := ""
def COMPANY_TIN : String := ""

/-- One reportlab millimetre in points: 72 / 25.4. -/
def mmUnit : ℚ := 360 / 127

def pageWidth : ℚ := 210 * mmUnit
def pageHeight : ℚ := 297 * mmUnit
def pdfMargin : ℚ := 18 * mmUnit
def pdfX0 : ℚ := pdfMargin

/-- A reportlab canvas call, as issued by `make_payslip_pdf`. -/
inductive PdfOp where
  | setFont (font : String) (size : ℚ)
  | drawString (x y : ℚ) (text : String)
  | drawRightString (x y : ℚ) (text : String)
  | line (x1 y1 x2 y2 : ℚ)
  | setFillGrey
  | showPage
deriving DecidableEq

/-- Canvas state: the ordered list of calls so far, plus the cursor `y`. -/
structure Canv where
  ops : List PdfOp
  y : ℚ

def emit (c : Canv) (op : PdfOp) : Canv :=
  { c with ops := c.ops ++ [op] }

/-- The texts of the right-aligned strings of a drawn page, in drawing
order: on a payslip these are exactly the money amounts (the component
values, gross, total deductions and net). -/
def rightTexts (l : List PdfOp) : List String :=
  l.filterMap fun op =>
    match op with
    | .drawRightString _ _ t => some t
    | _ => Option.none

/-- The `draw_header` closure (src lines 270-286). -/
def drawHeader (c0 : Canv) : Canv :=
  let c1 := emit c0 (.setFont "Helvetica-Bold" 14)
  let c2 := emit c1 (.drawString pdfX0 c1.y COMPANY_NAME)
  let c3 := { c2 with y := c2.y - 14 }
  let c4 := emit c3 (.setFont "Helvetica" 10)
  let c5 :=
    if COMPANY_DEPT ≠ "" then
      let d1 := emit c4 (.drawString pdfX0 c4.y COMPANY_DEPT)
      { d1 with y := d1.y - 12 }
    else c4
  let c6 :=
    if COMPANY_ADDRESS ≠ "" then
      let d1 := emit c5 (.drawString pdfX0 c5.y COMPANY_ADDRESS)
      { d1 with y := d1.y - 12 }
    else c5
  let c7 :=
    if COMPANY_TIN ≠ "" then
      let d1 := emit c6 (.drawString pdfX0 c6.y ("TIN: " ++ COMPANY_TIN))
      { d1 with y := d1.y - 14 }
    else c6
  let c8 := emit c7 (.line pdfX0 c7.y (pageWidth - pdfMargin) c7.y)
  { c8 with y := c8.y - 16 }

/-- The `label_value` closure (src lines 288-294). -/
def labelValue (c0 : Canv) (label value : String) : Canv :=
  let c1 := emit c0 (.setFont "Helvetica-Bold" 10)
  let c2 := emit c1 (.drawString pdfX0 c1.y label)
  let c3 := emit c2 (.setFont "Helvetica" 10)
  let c4 := emit c3 (.drawString (pdfX0 + 120) c3.y value)
  { c4 with y := c4.y - 12 }

/-- One two-column table column (src lines 345-355): per item a label at
`xLabel` and its peso value right-aligned at `xValue`, stepping the
column cursor down by 12 points per row. -/
def columnOps (xLabel xValue yStart : ℚ) (items : List (String × ℚ)) :
    List PdfOp × ℚ :=
  items.foldl
    (fun acc it =>
      (acc.1 ++ [.drawString xLabel acc.2 it.1,
                 .drawRightString xValue acc.2 (peso (.num it.2))],
       acc.2 - 12))
    ([], yStart)

/-- Everything `make_payslip_pdf` draws before the footer
(src lines 261-377). -/
def payslipBody (pr : PayrollRow) (er : EmployeeRow) : Canv :=
  let c0 : Canv := { ops := [], y := pageHeight - pdfMargin }
  let c1 := drawHeader c0
  let ps := pr.period_start.getD ""
  let pe := pr.period_end.getD ""
  let c2 := labelValue c1 "Employee Name:" er.full_name
  let c3 := labelValue c2 "Employee ID:" er.emp_id
  let c4 := if er.position ≠ "" then labelValue c3 "Position:" er.position else c3
  let c5 := if er.department ≠ "" then labelValue c4 "Department:" er.department else c4
  let c6 := labelValue c5 "Pay Period:" (ps ++ " to " ++ pe)
  let c7 := { c6 with y := c6.y - 6 }
  let c8 := emit c7 (.line pdfX0 c7.y (pageWidth - pdfMargin) c7.y)
  let c9 := { c8 with y := c8.y - 16 }
  let gross := grossOf pr
  let td := totalDeductionsOf pr
  let net := gross - td
  let c10 := emit c9 (.setFont "Helvetica-Bold" 11)
  let c11 := emit c10 (.drawString pdfX0 c10.y "EARNINGS")
  let c12 := emit c11 (.drawString (pageWidth / 2) c11.y "DEDUCTIONS")
  let c13 := { c12 with y := c12.y - 12 }
  let c14 := emit c13 (.setFont "Helvetica" 10)
  let leftCol := columnOps pdfX0 (pageWidth / 2 - 10) c14.y (earningsOf pr)
  let rightCol := columnOps (pageWidth / 2 + 10) (pageWidth - pdfMargin) c14.y (deductionsOf pr)
  let c15 : Canv := { ops := c14.ops ++ leftCol.1 ++ rightCol.1,
                      y := min leftCol.2 rightCol.2 - 10 }
  let c16 := emit c15 (.line pdfX0 c15.y (pageWidth - pdfMargin) c15.y)
  let c17 := { c16 with y := c16.y - 14 }
  let c18 := emit c17 (.setFont "Helvetica-Bold" 11)
  let c19 := emit c18 (.drawString pdfX0 c18.y "Gross Pay:")
  let c20 := emit c19 (.drawRightString (pageWidth / 2 - 10) c19.y (peso (.num gross)))
  let c21 := emit c20 (.drawString (pageWidth / 2 + 10) c20.y "Total Deductions:")
  let c22 := emit c21 (.drawRightString (pageWidth - pdfMargin) c21.y (peso (.num td)))
  let c23 := { c22 with y := c22.y - 18 }
  let c24 := emit c23 (.setFont "Helvetica-Bold" 12)
  let c25 := emit c24 (.drawString pdfX0 c24.y "NET PAY:")
  let c26 := emit c25 (.drawRightString (pageWidth - pdfMargin) c25.y (peso (.num net)))
  let c27 := { c26 with y := c26.y - 20 }
  let nts := String.mk (pyStrip (pr.notes.getD "").toList)
  if nts ≠ "" then
    let d1 := emit c27 (.setFont "Helvetica" 9)
    let d2 := emit d1 (.drawString pdfX0 d1.y ("Notes: " ++ nts))
    { d2 with y := d2.y - 12 }
  else c27

/-- Embedding of `make_payslip_pdf` (src lines 261-387).  The canvas is
modelled as the ordered list of its drawing calls; the PDF bytes the
real function returns are a fixed page-description encoding of exactly
these calls plus metadata derived from the same clock.  The generation
timestamp is taken as the already formatted string that
`datetime.now().strftime` produced.  The function is total: it draws a
page for every input. -/
def make_payslip_pdf (pr : PayrollRow) (er : EmployeeRow) (nowStr : String) :
    List PdfOp :=
  let body := payslipBody pr er
  let c1 := emit body (.setFont "Helvetica" 8)
  let c2 := emit c1 .setFillGrey
  let c3 := emit c2 (.drawString pdfX0 (12 * mmUnit)
      ("Generated on " ++ nowStr ++ " via REKS Payslip App"))
  (emit c3 .showPage).ops

-- ---------------- storage rows, reconciler, upsert ----------------

/-- A persisted payroll table row (schema in `init_db`, src lines
90-113): serial primary key `id`, employee reference, the two DATE
period endpoints (DATE values carry no time-of-day or timezone; they
are modelled as canonical date strings), the eleven NUMERIC monetary
columns as stored after coercion, optional notes, and the creation
timestamp (modelled as an abstract tick). -/
structure Row where
  id : Nat
  emp_id : String
  period_start : String
  period_end : String
  basic_pay : ℚ
  overtime_pay : ℚ
  allowances : ℚ
  bonus : ℚ
  sss : ℚ
  philhealth : ℚ
  pagibig : ℚ
  undertime : ℚ
  late : ℚ
  other_deductions : ℚ
  tax : ℚ
  notes : Option String
  created_at : Nat
deriving DecidableEq

/-- The PARTITION BY key of `merge_duplicate_payroll` (src line 247):
the stored `emp_id`, `period_start`, `period_end` values, verbatim. -/
def rowKey (r : Row) : String × String × String :=
  (r.emp_id, r.period_start, r.period_end)

/-- A row survives the reconciler's DELETE exactly when no row of its
partition has a higher `id` (src lines 245-253: rows ranked by `id`
descending inside each key partition, every row with rank above 1 is
deleted). -/
def keepRow (rows : List Row) (r : Row) : Bool :=
  rows.all fun s => if rowKey s = rowKey r then decide (s.id ≤ r.id) else true

/-- Embedding of `merge_duplicate_payroll` (src lines 241-257): the
remaining table contents, and the number of deleted rows (the length of
the RETURNING list). -/
def merge_duplicate_payroll (rows : List Row) : List Row × Nat :=
  let kept := rows.filter (keepRow rows)
  (kept, rows.length - kept.length)

/-- The dict argument of `insert_or_update_payroll`: key columns plus
raw monetary cells and notes. -/
structure PayIn where
  emp_id : String
  period_start : String
  period_end : String
  basic_pay : Value
  overtime_pay : Value
  allowances : Value
  bonus : Value
  sss : Value
  philhealth : Value
  pagibig : Value
  undertime : Value
  late : Value
  other_deductions : Value
  tax : Value
  notes : Option String
deriving DecidableEq

/-- `row.get("notes") or None` (src line 206): an absent or empty notes
string is stored as NULL. -/
def notesOrNull (n : Option String) : Option String :=
  match n with
  | Option.none => Option.none
  | some s => if s = "" then Option.none else some s

/-- Does a stored row conflict with the input on the UNIQUE
`(emp_id, period_start, period_end)` key? -/
def keyMatches (i : PayIn) (r : Row) : Bool :=
  decide ((r.emp_id, r.period_start, r.period_end) =
    (i.emp_id, i.period_start, i.period_end))

/-- The `DO UPDATE SET` clause of the upsert (src lines 177-189): the
eleven monetary columns and the notes are overwritten with the new
(coerced) values; `id`, the key columns and `created_at` are not in the
SET list and keep their stored values. -/
def applyUpdate (i : PayIn) (r : Row) : Row :=
  { r with
    basic_pay := to_float i.basic_pay
    overtime_pay := to_float i.overtime_pay
    allowances := to_float i.allowances
    bonus := to_float i.bonus
    sss := to_float i.sss
    philhealth := to_float i.philhealth
    pagibig := to_float i.pagibig
    undertime := to_float i.undertime
    late := to_float i.late
    other_deductions := to_float i.other_deductions
    tax := to_float i.tax
    notes := notesOrNull i.notes }

/-- A freshly inserted row: serial `id`, `created_at DEFAULT NOW()`. -/
def newRow (i : PayIn) (newId now : Nat) : Row :=
  { id := newId
    emp_id := i.emp_id
    period_start := i.period_start
    period_end := i.period_end
    basic_pay := to_float i.basic_pay
    overtime_pay := to_float i.overtime_pay
    allowances := to_float i.allowances
    bonus := to_float i.bonus
    sss := to_float i.sss
    philhealth := to_float i.philhealth
    pagibig := to_float i.pagibig
    undertime := to_float i.undertime
    late := to_float i.late
    other_deductions := to_float i.other_deductions
    tax := to_float i.tax
    notes := notesOrNull i.notes
    created_at := now }

/-- Embedding of `insert_or_update_payroll` (src lines 166-208): an
`INSERT ... ON CONFLICT (emp_id, period_start, period_end) DO UPDATE`.
On a key conflict every conflicting row is updated in place per
`applyUpdate`; otherwise a new row is appended with a fresh serial id
and the current timestamp. -/
def insert_or_update_payroll (store : List Row) (newId now : Nat) (i : PayIn) :
    List Row :=
  if store.any (keyMatches i) then
    store.map fun r => if keyMatches i r then applyUpdate i r else r
  else
    store ++ [newRow i newId now]

-- ---------------- concrete sample inputs ----------------

/-- A record whose deductions exceed its earnings. -/
def prNeg : PayrollRow :=
  { period_start := some "2025-08-01", period_end := some "2025-08-15"
    basic_pay := .num 40, overtime_pay := .none, allowances := .none
    bonus := .none, sss := .none, philhealth := .none, pagibig := .none
    undertime := .none, late := .none, other_deductions := .none
    tax := .num 100, notes := Option.none }

/-- A record with every monetary field zero or absent and empty notes. -/
def prZero : PayrollRow :=
  { period_start := some "2025-08-01", period_end := some "2025-08-15"
    basic_pay := .num 0, overtime_pay := .none, allowances := .num 0
    bonus := .none, sss := .none, philhealth := .num 0, pagibig := .none
    undertime := .none, late := .none, other_deductions := .none
    tax := .none, notes := some "" }

/-- An employee with no position and no department. -/
def erZero : EmployeeRow :=
  { emp_id := "E1", full_name := "Test User", position := "", department := "" }

/-- A stored payroll row with a given id, key, basic pay and timestamp;
all other monetary columns zero, NULL notes. -/
def mkRow (idv : Nat) (emp ps pe : String) (basic : ℚ) (created : Nat) : Row :=
  { id := idv, emp_id := emp, period_start := ps, period_end := pe
    basic_pay := basic, overtime_pay := 0, allowances := 0, bonus := 0
    sss := 0, philhealth := 0, pagibig := 0, undertime := 0, late := 0
    other_deductions := 0, tax := 0, notes := Option.none, created_at := created }

/-- An upsert input carrying a given key and basic pay, other cells
absent. -/
def mkPayIn (emp ps pe : String) (basic : Value) (nts : Option String) : PayIn :=
  { emp_id := emp, period_start := ps, period_end := pe
    basic_pay := basic, overtime_pay := .none, allowances := .none
    bonus := .none, sss := .none, philhealth := .none, pagibig := .none
    undertime := .none, late := .none, other_deductions := .none
    tax := .none, notes := nts }

/-- Three rows for one key, inserted as ids 10, 11, 12. -/
def rows10 : List Row :=
  [mkRow 10 "EMP001" "2025-08-01" "2025-08-15" 100 1,
   mkRow 11 "EMP001" "2025-08-01" "2025-08-15" 200 2,
   mkRow 12 "EMP001" "2025-08-01" "2025-08-15" 300 3]

/-- Two rows with distinct keys. -/
def rowsDistinct : List Row :=
  [mkRow 1 "A" "2025-01-01" "2025-01-15" 10 1,
   mkRow 2 "B" "2025-01-01" "2025-01-15" 20 2]

/-- Two rows whose emp_id values differ only by surrounding whitespace. -/
def rowsWs : List Row :=
  [mkRow 1 "E1" "2025-08-01" "2025-08-15" 100 1,
   mkRow 2 " E1 " "2025-08-01" "2025-08-15" 100 2]

/-- Two rows sharing one verbatim key, ids 3 and 4. -/
def rowsDup : List Row :=
  [mkRow 3 "E2" "2025-02-01" "2025-02-15" 50 1,
   mkRow 4 "E2" "2025-02-01" "2025-02-15" 60 2]

/-- A stored row created at tick 5. -/
def rowOld : Row := mkRow 1 "E3" "2025-03-01" "2025-03-15" 100 5

/-- A newer upsert input for the same key as `rowOld`. -/
def inpNew : PayIn := mkPayIn "E3" "2025-03-01" "2025-03-15" (.num 250) (some "updated")

-- ---------------- helper lemmas ----------------

theorem keepRow_eq_true_iff (rows : List Row) (r : Row) :
    keepRow rows r = true ↔ ∀ s ∈ rows, rowKey s = rowKey r → s.id ≤ r.id := by
  unfold keepRow
  rw [List.all_eq_true]
  constructor
  · intro h s hs hk
    have h2 := h s hs
    rw [if_pos hk] at h2
    exact of_decide_eq_true h2
  · intro h s hs
    by_cases hk : rowKey s = rowKey r
    · rw [if_pos hk]
      exact decide_eq_true (h s hs hk)
    · rw [if_neg hk]

theorem mem_merge_iff (rows : List Row) (r : Row) (hr : r ∈ rows) :
    r ∈ (merge_duplicate_payroll rows).1 ↔
      ∀ s ∈ rows, rowKey s = rowKey r → s.id ≤ r.id := by
  unfold merge_duplicate_payroll
  simp only [List.mem_filter, keepRow_eq_true_iff]
  exact ⟨fun h => h.2, fun h => ⟨hr, h⟩⟩

theorem exists_max_id (l : List Row) (hne : l ≠ []) :
    ∃ m ∈ l, ∀ s ∈ l, s.id ≤ m.id := by
  induction l with
  | nil => exact absurd rfl hne
  | cons a t ih =>
    by_cases ht : t = []
    · subst ht
      refine ⟨a, by simp, ?_⟩
      intro s hs
      rw [List.mem_singleton] at hs
      rw [hs]
    · obtain ⟨m, hm, hmax⟩ := ih ht
      by_cases hc : a.id ≤ m.id
      · refine ⟨m, List.mem_cons_of_mem a hm, ?_⟩
        intro s hs
        rcases List.mem_cons.mp hs with h | h
        · rw [h]; exact hc
        · exact hmax s h
      · refine ⟨a, List.mem_cons_self a t, ?_⟩
        intro s hs
        rcases List.mem_cons.mp hs with h | h
        · rw [h]
        · exact le_trans (hmax s h) (le_of_not_le hc)

theorem exists_kept_same_key (rows : List Row) (r : Row) (hr : r ∈ rows) :
    ∃ m ∈ (merge_duplicate_payroll rows).1, rowKey m = rowKey r ∧
      ∀ s ∈ rows, rowKey s = rowKey r → s.id ≤ m.id := by
  have hg : r ∈ rows.filter (fun s => decide (rowKey s = rowKey r)) :=
    List.mem_filter.mpr ⟨hr, decide_eq_true rfl⟩
  obtain ⟨m, hm, hmax⟩ :=
    exists_max_id (rows.filter (fun s => decide (rowKey s = rowKey r)))
      (List.ne_nil_of_mem hg)
  have hmr : m ∈ rows := (List.mem_filter.mp hm).1
  have hmk : rowKey m = rowKey r := of_decide_eq_true (List.mem_filter.mp hm).2
  have hmax2 : ∀ s ∈ rows, rowKey s = rowKey r → s.id ≤ m.id := by
    intro s hs hk
    exact hmax s (List.mem_filter.mpr ⟨hs, decide_eq_true hk⟩)
  refine ⟨m, ?_, hmk, hmax2⟩
  rw [mem_merge_iff rows m hmr]
  intro s hs hk
  exact hmax2 s hs (hk.trans hmk)

theorem kept_length_eq_keys (rows : List Row) (hid : (rows.map Row.id).Nodup) :
    (merge_duplicate_payroll rows).1.length = ((rows.map rowKey).dedup).length := by
  have hinj : ∀ x ∈ rows, ∀ y ∈ rows, x.id = y.id → x = y :=
    List.inj_on_of_nodup_map hid
  have hnodup : rows.Nodup := List.Nodup.of_map _ hid
  have hkept_sub : ∀ r ∈ (merge_duplicate_payroll rows).1, r ∈ rows :=
    fun r h => (List.mem_filter.mp h).1
  have hkinj : ∀ x ∈ (merge_duplicate_payroll rows).1,
      ∀ y ∈ (merge_duplicate_payroll rows).1, rowKey x = rowKey y → x = y := by
    intro x hx y hy hxy
    have h1 : y.id ≤ x.id :=
      (mem_merge_iff rows x (hkept_sub x hx)).mp hx y (hkept_sub y hy) hxy.symm
    have h2 : x.id ≤ y.id :=
      (mem_merge_iff rows y (hkept_sub y hy)).mp hy x (hkept_sub x hx) hxy
    exact hinj x (hkept_sub x hx) y (hkept_sub y hy) (le_antisymm h2 h1)
  have hkeptnodup : (merge_duplicate_payroll rows).1.Nodup :=
    List.Nodup.filter _ hnodup
  have hmapnodup : ((merge_duplicate_payroll rows).1.map rowKey).Nodup :=
    List.Nodup.map_on hkinj hkeptnodup
  have hmem : ∀ k, k ∈ (merge_duplicate_payroll rows).1.map rowKey ↔
      k ∈ (rows.map rowKey).dedup := by
    intro k
    rw [List.mem_dedup, List.mem_map, List.mem_map]
    constructor
    · rintro ⟨r, hr, rfl⟩
      exact ⟨r, hkept_sub r hr, rfl⟩
    · rintro ⟨r, hr, rfl⟩
      obtain ⟨m, hm, hkey, _⟩ := exists_kept_same_key rows r hr
      exact ⟨m, hm, hkey⟩
  have hfin : ((merge_duplicate_payroll rows).1.map rowKey).toFinset =
      ((rows.map rowKey).dedup).toFinset := by
    ext k
    simp only [List.mem_toFinset]
    exact hmem k
  have hlen : ((merge_duplicate_payroll rows).1.map rowKey).length =
      ((rows.map rowKey).dedup).length := by
    rw [← List.toFinset_card_of_nodup hmapnodup,
      ← List.toFinset_card_of_nodup (List.nodup_dedup (rows.map rowKey)), hfin]
  simpa using hlen

theorem roundHalfEven_intCast (z : ℤ) : roundHalfEven (z : ℚ) = z := by
  simp only [roundHalfEven, Int.floor_intCast, sub_self]
  norm_num

theorem fmtComma2_eq_of (q : ℚ) (z : ℤ) (h : q * 100 = (z : ℚ)) :
    fmtComma2 q =
      (if z < 0 then "-" else "") ++ String.mk (commaGroup (z.natAbs / 100)) ++
        "." ++ String.mk (pad2 (z.natAbs % 100)) := by
  simp only [fmtComma2, h, roundHalfEven_intCast]

theorem fmtComma2_zero : fmtComma2 0 = "0.00" := by
  rw [fmtComma2_eq_of 0 0 (by norm_num)]
  decide

theorem peso_num (q : ℚ) : peso (.num q) = "₱" ++ fmtComma2 q := rfl

theorem charOfDigit_isDigit (n : Nat) : (Char.ofNat (48 + n % 10)).isDigit = true := by
  have h : n % 10 < 10 := Nat.mod_lt _ (by norm_num)
  set k := n % 10 with hk
  interval_cases k <;> decide

theorem twoDecimalSuffix_of_toList (s : String) (pre : List Char) (c1 c2 : Char)
    (h : s.toList = pre ++ '.' :: [c1, c2]) (h1 : c1.isDigit = true)
    (h2 : c2.isDigit = true) : twoDecimalSuffix s = true := by
  unfold twoDecimalSuffix
  rw [h]
  simp [List.reverse_append, h1, h2]

theorem fmtComma2_1234_50 : fmtComma2 (2469 / 2) = "1,234.50" := by
  rw [fmtComma2_eq_of (2469 / 2) 123450 (by norm_num)]
  decide

theorem twoDecimalSuffix_fmt (q : ℚ) : twoDecimalSuffix ("₱" ++ fmtComma2 q) = true := by
  apply twoDecimalSuffix_of_toList _
      ("₱".toList ++ (if roundHalfEven (q * 100) < 0 then "-" else "").toList ++
        commaGroup ((roundHalfEven (q * 100)).natAbs / 100))
      (Char.ofNat (48 + (roundHalfEven (q * 100)).natAbs % 100 / 10 % 10))
      (Char.ofNat (48 + (roundHalfEven (q * 100)).natAbs % 100 % 10))
  · simp only [fmtComma2, pad2]
    simp [String.toList, String.data_append]
  · exact charOfDigit_isDigit _
  · exact charOfDigit_isDigit _

-- ---------------- claims ----------------

/-- C1: for every payroll record the aggregator computes gross as the sum
of the coerced basic_pay, overtime_pay, allowances and bonus (in that
fixed order), total deductions as the sum of the coerced sss, philhealth,
pagibig, undertime, late, other_deductions and tax (in that fixed order),
and net exactly as gross minus total deductions, with no intermediate
rounding and no clamping: when deductions exceed gross the net is
negative. -/
theorem aggregate_net_exact (pr : PayrollRow) :
    grossOf pr = to_float pr.basic_pay + to_float pr.overtime_pay +
        to_float pr.allowances + to_float pr.bonus ∧
    totalDeductionsOf pr = to_float pr.sss + to_float pr.philhealth +
        to_float pr.pagibig + to_float pr.undertime + to_float pr.late +
        to_float pr.other_deductions + to_float pr.tax ∧
    aggregate pr = (grossOf pr, totalDeductionsOf pr, grossOf pr - totalDeductionsOf pr) ∧
    (grossOf pr < totalDeductionsOf pr → netOf pr < 0) := by
  refine ⟨?_, ?_, rfl, fun h => ?_⟩
  · simp [grossOf, earningsOf]
  · simp [totalDeductionsOf, deductionsOf]
  · have e : netOf pr = grossOf pr - totalDeductionsOf pr := rfl
    rw [e]
    exact sub_neg.mpr h

theorem aggregate_net_exact_witness :
    grossOf prNeg < totalDeductionsOf prNeg ∧ netOf prNeg < 0 := by
  have h : grossOf prNeg < totalDeductionsOf prNeg := by
    norm_num [grossOf, earningsOf, totalDeductionsOf, deductionsOf, prNeg, to_float]
  exact ⟨h, (aggregate_net_exact prNeg).2.2.2 h⟩

/-- C4: the monetary coercion is total (a Lean function: it never
raises); None, NaN, the blank string and every unparseable string coerce
to 0, and numeric inputs are returned as their value. -/
theorem to_float_silent_default :
    to_float Value.none = 0 ∧ to_float Value.nan = 0 ∧
    (∀ q : ℚ, to_float (Value.num q) = q) ∧
    (∀ s : String,
      parsePyFloat ((pyStrip s.toList).filter (fun c => c != ',')) = Option.none →
      to_float (Value.str s) = 0) := by
  refine ⟨rfl, rfl, fun q => rfl, fun s h => ?_⟩
  have e : to_float (Value.str s) =
      if ((pyStrip s.toList).filter (fun c => c != ',')).isEmpty then 0
      else (parsePyFloat ((pyStrip s.toList).filter (fun c => c != ','))).getD 0 := rfl
  rw [e, h]
  simp

theorem to_float_silent_default_witness :
    to_float (Value.str " abc ") = 0 ∧ to_float (Value.num 7) = 7 :=
  ⟨to_float_silent_default.2.2.2 " abc " rfl, to_float_silent_default.2.2.1 7⟩

/-- C5 counterexample: a NaN is numeric input — `float()` succeeds on it —
yet peso renders it as `₱nan`, which is neither a two-decimal rendering
nor the fixed `₱0.00`, refuting the claimed dichotomy over every input. -/
theorem peso_nan_counterexample :
    pyFloat Value.nan = some PyNum.nan ∧ peso Value.nan = "₱nan" ∧
    twoDecimalSuffix (peso Value.nan) = false ∧ peso Value.nan ≠ "₱0.00" := by
  refine ⟨rfl, rfl, rfl, ?_⟩
  decide

/-- C5 amended: for every finite numeric input peso returns the peso sign
followed by the comma-grouped rendering with exactly two decimal digits
(format(1234.5) = "₱1,234.50", format(0) = "₱0.00"); every input whose
conversion to a number fails returns exactly "₱0.00" (format("abc") =
"₱0.00"); a NaN input — on which conversion succeeds — returns "₱nan".
The function is total, so no exception reaches the caller. -/
theorem peso_formatting (v : Value) :
    (pyFloat v = Option.none → peso v = "₱0.00") ∧
    (∀ q : ℚ, pyFloat v = some (PyNum.fin q) →
      peso v = "₱" ++ fmtComma2 q ∧ twoDecimalSuffix (peso v) = true) ∧
    (pyFloat v = some PyNum.nan → peso v = "₱nan") := by
  refine ⟨fun h => ?_, fun q h => ?_, fun h => ?_⟩
  · simp [peso, h]
  · have e : peso v = "₱" ++ fmtComma2 q := by simp [peso, h]
    exact ⟨e, by rw [e]; exact twoDecimalSuffix_fmt q⟩
  · simp [peso, h]

theorem peso_formatting_witness :
    peso (Value.num (2469 / 2)) = "₱1,234.50" ∧ peso (Value.num 0) = "₱0.00" ∧
    peso (Value.str "abc") = "₱0.00" := by
  refine ⟨?_, ?_, ?_⟩
  · have h := ((peso_formatting (Value.num (2469 / 2))).2.1 (2469 / 2) rfl).1
    rw [h, fmtComma2_1234_50]
    decide
  · have h := ((peso_formatting (Value.num 0)).2.1 0 rfl).1
    rw [h, fmtComma2_zero]
    decide
  · exact (peso_formatting (Value.str "abc")).1 rfl

/-- C2: within each (emp_id, period_start, period_end) group the
reconciler keeps exactly the rows of the input with the maximal id of
their group (no field is summed: survivors are input rows, unchanged),
leaves every singleton group untouched, keeps one survivor per key, and
returns the number of deleted rows — the input length minus the number
of distinct keys, i.e. the sum over groups of (group size - 1). -/
theorem merge_keeps_latest (rows : List Row) (hid : (rows.map Row.id).Nodup) :
    (∀ r ∈ (merge_duplicate_payroll rows).1, r ∈ rows) ∧
    (∀ r ∈ rows, (r ∈ (merge_duplicate_payroll rows).1 ↔
        ∀ s ∈ rows, rowKey s = rowKey r → s.id ≤ r.id)) ∧
    (∀ r ∈ rows, ∃ m ∈ (merge_duplicate_payroll rows).1, rowKey m = rowKey r) ∧
    ((merge_duplicate_payroll rows).2 + ((rows.map rowKey).dedup).length =
      rows.length) := by
  refine ⟨fun r h => (List.mem_filter.mp h).1,
          fun r hr => mem_merge_iff rows r hr,
          fun r hr => ?_, ?_⟩
  · obtain ⟨m, hm, hkey, _⟩ := exists_kept_same_key rows r hr
    exact ⟨m, hm, hkey⟩
  · have hlen : (merge_duplicate_payroll rows).1.length ≤ rows.length :=
      List.length_filter_le _ _
    have e2 : (merge_duplicate_payroll rows).2 =
        rows.length - (merge_duplicate_payroll rows).1.length := rfl
    rw [e2, ← kept_length_eq_keys rows hid, Nat.sub_add_cancel hlen]

theorem merge_keeps_latest_witness :
    ((rows10.map Row.id).Nodup) ∧
    (merge_duplicate_payroll rows10).1 =
      [mkRow 12 "EMP001" "2025-08-01" "2025-08-15" 300 3] ∧
    (merge_duplicate_payroll rows10).2 = 2 ∧
    (∀ r ∈ (merge_duplicate_payroll rows10).1, r ∈ rows10) :=
  ⟨by decide, by decide, by decide, (merge_keeps_latest rows10 (by decide)).1⟩

/-- C8 counterexample: two rows agreeing on (trimmed emp_id, period_start,
period_end) but with emp_id differing in surrounding whitespace are NOT
grouped together: the reconciler removes nothing (count 0, both rows kept),
because its PARTITION BY uses the stored emp_id verbatim. -/
theorem merge_key_counterexample :
    merge_duplicate_payroll rowsWs = (rowsWs, 0) ∧
    rowsWs.map Row.emp_id = ["E1", " E1 "] ∧
    pyStrip " E1 ".toList = "E1".toList ∧
    rowsWs.map Row.period_start = ["2025-08-01", "2025-08-01"] ∧
    rowsWs.map Row.period_end = ["2025-08-15", "2025-08-15"] := by
  decide

/-- C8 amended: the reconciler's grouping key is the stored
(emp_id, period_start, period_end) triple verbatim — no whitespace
trimming of emp_id — so rows differing only in surrounding whitespace
fall into different groups; the period endpoints are DATE column values,
which already carry no time-of-day or timezone.  Precisely: a row of the
input is deleted iff some input row with the identical stored key has a
higher id. -/
theorem merge_key_verbatim (rows : List Row) (r : Row) (hr : r ∈ rows) :
    r ∉ (merge_duplicate_payroll rows).1 ↔
      ∃ s ∈ rows, rowKey s = rowKey r ∧ r.id < s.id := by
  constructor
  · intro hnot
    by_contra hne
    push_neg at hne
    apply hnot
    rw [mem_merge_iff rows r hr]
    intro s hs hk
    exact hne s hs hk
  · rintro ⟨s, hs, hk, hlt⟩ hmem
    exact absurd ((mem_merge_iff rows r hr).mp hmem s hs hk) (not_le.mpr hlt)

theorem merge_key_verbatim_witness :
    mkRow 3 "E2" "2025-02-01" "2025-02-15" 50 1 ∉
      (merge_duplicate_payroll rowsDup).1 :=
  (merge_key_verbatim rowsDup _ (by decide)).mpr
    ⟨mkRow 4 "E2" "2025-02-01" "2025-02-15" 60 2, by decide, by decide, by decide⟩

/-- C9: reconciliation is idempotent — a second run on the output of a
first run deletes nothing and reports 0 — and on a collection whose keys
are already duplicate-free it is a no-op: it returns the rows exactly as
they are (in particular every created_at is unaltered) with count 0. -/
theorem merge_idempotent (rows : List Row) :
    merge_duplicate_payroll (merge_duplicate_payroll rows).1 =
      ((merge_duplicate_payroll rows).1, 0) ∧
    ((rows.map rowKey).Nodup → merge_duplicate_payroll rows = (rows, 0)) := by
  constructor
  · have hfix : (merge_duplicate_payroll rows).1.filter
        (keepRow (merge_duplicate_payroll rows).1) =
        (merge_duplicate_payroll rows).1 := by
      apply List.filter_eq_self.mpr
      intro r hrk
      rw [keepRow_eq_true_iff]
      intro s hs hk
      exact (mem_merge_iff rows r ((List.mem_filter.mp hrk).1)).mp hrk s
        ((List.mem_filter.mp hs).1) hk
    show ((merge_duplicate_payroll rows).1.filter
        (keepRow (merge_duplicate_payroll rows).1),
        (merge_duplicate_payroll rows).1.length -
          ((merge_duplicate_payroll rows).1.filter
            (keepRow (merge_duplicate_payroll rows).1)).length) = _
    rw [hfix, Nat.sub_self]
  · intro hkeys
    have hinj : ∀ x ∈ rows, ∀ y ∈ rows, rowKey x = rowKey y → x = y :=
      List.inj_on_of_nodup_map hkeys
    have hfix : rows.filter (keepRow rows) = rows := by
      apply List.filter_eq_self.mpr
      intro r hrk
      rw [keepRow_eq_true_iff]
      intro s hs hk
      rw [hinj s hs r hrk hk]
    show (rows.filter (keepRow rows),
        rows.length - (rows.filter (keepRow rows)).length) = _
    rw [hfix, Nat.sub_self]

theorem merge_idempotent_witness :
    merge_duplicate_payroll rowsDistinct = (rowsDistinct, 0) :=
  (merge_idempotent rowsDistinct).2 (by decide)

/-- C3 counterexample: upserting over an existing key does not refresh
the stored creation timestamp: with the clock at tick 9, the updated row
still carries its original created_at = 5 (while its monetary fields are
overwritten — basic_pay becomes 250). -/
theorem upsert_timestamp_counterexample :
    (insert_or_update_payroll [rowOld] 2 9 inpNew).map Row.created_at = [5] ∧
    (insert_or_update_payroll [rowOld] 2 9 inpNew).map Row.basic_pay = [250] ∧
    (5 : Nat) ≠ 9 := by
  decide

theorem keyMatches_applyUpdate (i : PayIn) (r : Row) :
    keyMatches i (applyUpdate i r) = keyMatches i r := rfl

/-- C3 amended: upserting a record whose (emp_id, period_start,
period_end) key already exists in the store overwrites the monetary
fields and notes of the conflicting row with the newer values and never
creates a second row — the row count and the per-key row count are
unchanged, so a key stored once is stored exactly once afterwards — but
the existing row's creation timestamp is preserved, not refreshed. -/
theorem upsert_overwrites_in_place (store : List Row) (i : PayIn)
    (newId now : Nat) (h : store.any (keyMatches i) = true) :
    (insert_or_update_payroll store newId now i).length = store.length ∧
    (insert_or_update_payroll store newId now i).countP (keyMatches i) =
      store.countP (keyMatches i) ∧
    (∀ r ∈ store, keyMatches i r = true →
      applyUpdate i r ∈ insert_or_update_payroll store newId now i ∧
      (applyUpdate i r).created_at = r.created_at ∧
      (applyUpdate i r).basic_pay = to_float i.basic_pay ∧
      (applyUpdate i r).notes = notesOrNull i.notes) ∧
    (∀ r ∈ store, keyMatches i r = false →
      r ∈ insert_or_update_payroll store newId now i) := by
  have e : insert_or_update_payroll store newId now i =
      store.map (fun r => if keyMatches i r then applyUpdate i r else r) := by
    unfold insert_or_update_payroll
    rw [if_pos h]
  refine ⟨by rw [e]; exact List.length_map store _, ?_, ?_, ?_⟩
  · rw [e, List.countP_map]
    apply List.countP_congr
    intro r _
    simp only [Function.comp_apply]
    by_cases hk : keyMatches i r = true
    · have e2 : (if keyMatches i r then applyUpdate i r else r) = applyUpdate i r :=
        if_pos hk
      rw [e2, keyMatches_applyUpdate]
    · have e2 : (if keyMatches i r then applyUpdate i r else r) = r := if_neg hk
      rw [e2]
  · intro r hr hk
    refine ⟨?_, rfl, rfl, rfl⟩
    rw [e]
    exact List.mem_map.mpr ⟨r, hr, by rw [if_pos hk]⟩
  · intro r hr hk
    rw [e]
    refine List.mem_map.mpr ⟨r, hr, ?_⟩
    rw [if_neg]
    rw [hk]
    exact Bool.false_ne_true

theorem upsert_overwrites_in_place_witness :
    [rowOld].any (keyMatches inpNew) = true ∧
    (insert_or_update_payroll [rowOld] 2 9 inpNew).length = 1 ∧
    applyUpdate inpNew rowOld ∈ insert_or_update_payroll [rowOld] 2 9 inpNew ∧
    (applyUpdate inpNew rowOld).created_at = rowOld.created_at := by
  have h := upsert_overwrites_in_place [rowOld] inpNew 2 9 (by decide)
  have hm := h.2.2.1 rowOld (by decide) (by decide)
  exact ⟨by decide, h.1.trans rfl, hm.1, hm.2.1⟩

/-- C7: composing a payslip twice from identical payroll, employee and
company inputs produces drawing-call sequences that share an identical
timestamp-independent prefix and differ only in the footer, whose sole
dependence on the clock is the embedded generation-timestamp string:
no other drawn byte can differ between the two runs. -/
theorem make_payslip_pdf_deterministic (pr : PayrollRow) (er : EmployeeRow)
    (t1 t2 : String) :
    ∃ pre : List PdfOp,
      make_payslip_pdf pr er t1 = pre ++
        [.setFont "Helvetica" 8, .setFillGrey,
         .drawString pdfX0 (12 * mmUnit)
           ("Generated on " ++ t1 ++ " via REKS Payslip App"),
         .showPage] ∧
      make_payslip_pdf pr er t2 = pre ++
        [.setFont "Helvetica" 8, .setFillGrey,
         .drawString pdfX0 (12 * mmUnit)
           ("Generated on " ++ t2 ++ " via REKS Payslip App"),
         .showPage] := by
  refine ⟨(payslipBody pr er).ops, ?_, ?_⟩ <;>
    simp [make_payslip_pdf, emit]

/-- C6: the composer totally renders (nothing can raise: it is a total
function producing a nonempty page) the all-zero/absent record for the
employee with empty position and department, and every right-aligned
money string it draws — the four earnings components, the seven
deduction components, gross pay, total deductions and net pay — is
exactly "₱0.00". -/
theorem make_payslip_zero_renders :
    make_payslip_pdf prZero erZero "2025-09-01 12:00" ≠ [] ∧
    rightTexts (make_payslip_pdf prZero erZero "2025-09-01 12:00") =
      List.replicate 14 "₱0.00" := by
  have hg : grossOf prZero = 0 := by
    norm_num [grossOf, earningsOf, prZero, to_float]
  have ht : totalDeductionsOf prZero = 0 := by
    norm_num [totalDeductionsOf, deductionsOf, prZero, to_float]
  have hz : peso (.num 0) = "₱0.00" := by
    rw [peso_num, fmtComma2_zero]
    decide
  have e1 : prZero.basic_pay = Value.num 0 := rfl
  have e2 : prZero.overtime_pay = Value.none := rfl
  have e3 : prZero.allowances = Value.num 0 := rfl
  have e4 : prZero.bonus = Value.none := rfl
  have e5 : prZero.sss = Value.none := rfl
  have e6 : prZero.philhealth = Value.num 0 := rfl
  have e7 : prZero.pagibig = Value.none := rfl
  have e8 : prZero.undertime = Value.none := rfl
  have e9 : prZero.late = Value.none := rfl
  have e10 : prZero.other_deductions = Value.none := rfl
  have e11 : prZero.tax = Value.none := rfl
  have en : prZero.notes = some "" := rfl
  have ep : erZero.position = "" := rfl
  have ed : erZero.department = "" := rfl
  constructor
  · simp [make_payslip_pdf, emit]
  · simp [make_payslip_pdf, payslipBody, emit, drawHeader, labelValue, columnOps,
      rightTexts, earningsOf, deductionsOf, to_float, hg, ht, hz,
      e1, e2, e3, e4, e5, e6, e7, e8, e9, e10, e11, en, ep, ed,
      COMPANY_NAME, COMPANY_DEPT, COMPANY_ADDRESS, COMPANY_TIN, pyStrip,
      List.replicate]

theorem digit_not_ws (c : Char) (h : c.isDigit = true) : c.isWhitespace = false := by
  simp only [Char.isDigit, Bool.and_eq_true, decide_eq_true_eq] at h
  simp only [Char.isWhitespace, Bool.or_eq_false_iff, decide_eq_false_iff_not]
  refine ⟨⟨⟨?_, ?_⟩, ?_⟩, ?_⟩ <;> rintro rfl <;> exact absurd h (by decide)

theorem allowed_not_ws (c : Char)
    (h : (c.isDigit || c == ',' || c == '.') = true) : c.isWhitespace = false := by
  have h2 : (c.isDigit = true ∨ c = ',') ∨ c = '.' := by simpa using h
  rcases h2 with (h3 | h3) | h3
  · exact digit_not_ws c h3
  · subst h3
    decide
  · subst h3
    decide

theorem dropWhile_append_all (p : Char → Bool) (l1 l2 : List Char)
    (h : l1.all p = true) : (l1 ++ l2).dropWhile p = l2.dropWhile p := by
  induction l1 with
  | nil => rfl
  | cons a t ih =>
    rw [List.all_cons, Bool.and_eq_true] at h
    rw [List.cons_append, List.dropWhile_cons, if_pos h.1]
    exact ih h.2

theorem dropWhile_cons_neg (p : Char → Bool) (c : Char) (t : List Char)
    (h : p c = false) : (c :: t).dropWhile p = c :: t := by
  rw [List.dropWhile_cons, if_neg]
  rw [h]
  exact Bool.false_ne_true

theorem pyStrip_sandwich (ws1 ws2 core : List Char)
    (h1 : ws1.all Char.isWhitespace = true) (h2 : ws2.all Char.isWhitespace = true)
    (h3 : ∀ c ∈ core, c.isWhitespace = false) (hne : core ≠ []) :
    pyStrip (ws1 ++ core ++ ws2) = core := by
  obtain ⟨c, rest, rfl⟩ := List.exists_cons_of_ne_nil hne
  unfold pyStrip
  have s1 : (ws1 ++ (c :: rest) ++ ws2).dropWhile Char.isWhitespace =
      (c :: rest) ++ ws2 := by
    rw [List.append_assoc, dropWhile_append_all _ _ _ h1, List.cons_append,
      dropWhile_cons_neg _ _ _ (h3 c (List.mem_cons_self c rest))]
  rw [s1, List.reverse_append,
    dropWhile_append_all _ _ _ (by rw [List.all_reverse]; exact h2)]
  rcases hrev : (c :: rest).reverse with _ | ⟨d, drest⟩
  · exact absurd hrev (by simp)
  · have hdmem : d ∈ c :: rest := by
      rw [← List.mem_reverse, hrev]
      exact List.mem_cons_self d drest
    rw [dropWhile_cons_neg _ _ _ (h3 d hdmem), ← hrev, List.reverse_reverse]

theorem takeDigits_none (r : List Char)
    (hr : ∀ c, r.head? = some c → c.isDigit = false) : takeDigits r = ([], r) := by
  cases r with
  | nil => rfl
  | cons c t =>
    have h : c.isDigit = false := hr c rfl
    simp only [takeDigits, h, Bool.false_eq_true, if_false]

theorem takeDigits_append (d r : List Char) (hd : d.all Char.isDigit = true)
    (hr : ∀ c, r.head? = some c → c.isDigit = false) :
    takeDigits (d ++ r) = (d, r) := by
  induction d with
  | nil => simpa using takeDigits_none r hr
  | cons a t ih =>
    rw [List.all_cons, Bool.and_eq_true] at hd
    rw [List.cons_append]
    simp only [takeDigits, hd.1, if_true, ih hd.2]

theorem parsePyFloat_num (intD frac : List Char)
    (hint : intD ≠ []) (hd : intD.all Char.isDigit = true)
    (hf : frac.all Char.isDigit = true) :
    parsePyFloat (intD ++ (if frac.isEmpty then [] else '.' :: frac)) =
      some ((digitsToNat intD : ℚ) +
        (digitsToNat frac : ℚ) / (10 : ℚ) ^ frac.length) := by
  obtain ⟨c, rest, rfl⟩ := List.exists_cons_of_ne_nil hint
  have hcd : c.isDigit = true := by
    rw [List.all_cons, Bool.and_eq_true] at hd
    exact hd.1
  have hc1 : ¬c = '-' := by
    rintro rfl
    exact absurd hcd (by decide)
  have hc2 : ¬c = '+' := by
    rintro rfl
    exact absurd hcd (by decide)
  rcases frac with _ | ⟨f0, ftail⟩
  · simp only [List.isEmpty_nil, if_true, List.append_nil]
    have htd : takeDigits (c :: rest) = (c :: rest, []) := by
      have := takeDigits_append (c :: rest) [] hd (fun c h => by cases h)
      rwa [List.append_nil] at this
    simp only [parsePyFloat, List.head?_cons, Option.some.injEq, hc1, hc2,
      if_false, false_or, htd, List.isEmpty_cons, Bool.false_eq_true,
      List.isEmpty_nil]
    rw [show digitsToNat ([] : List Char) = 0 from rfl, one_mul]
    norm_num
  · simp only [List.isEmpty_cons, Bool.false_eq_true, if_false]
    have htd : takeDigits ((c :: rest) ++ '.' :: f0 :: ftail) =
        (c :: rest, '.' :: f0 :: ftail) :=
      takeDigits_append (c :: rest) ('.' :: f0 :: ftail) hd
        (fun x h => by
          simp only [List.head?_cons, Option.some.injEq] at h
          rw [← h]
          decide)
    have htf : takeDigits (f0 :: ftail) = (f0 :: ftail, []) := by
      have := takeDigits_append (f0 :: ftail) [] hf (fun c h => by cases h)
      rwa [List.append_nil] at this
    simp only [parsePyFloat, List.cons_append, List.head?_cons, Option.some.injEq,
      hc1, hc2, if_false, false_or]
    rw [show (c :: (rest ++ '.' :: f0 :: ftail)) = (c :: rest) ++ '.' :: f0 :: ftail
        from rfl, htd]
    simp only [htf, List.isEmpty_nil, List.isEmpty_cons, Bool.false_eq_true,
      Bool.false_and, Bool.not_false, Bool.true_and, Bool.and_true, if_true]
    rw [one_mul]

/-- C10: for every string made of optional surrounding whitespace around
a decimal numeral with optional commas between its characters (covering
in particular comma thousands separators: removing the commas leaves a
digit run optionally followed by a dot and a fractional digit run),
to_float strips the whitespace and the commas and returns the numeral's
exact value — e.g. to_float(" 1,234.50 ") = 1234.5 — rather than the 0
fallback. -/
theorem to_float_comma_numeral (ws1 ws2 core intD frac : List Char)
    (hws1 : ws1.all Char.isWhitespace = true)
    (hws2 : ws2.all Char.isWhitespace = true)
    (hall : core.all (fun c => c.isDigit || c == ',' || c == '.') = true)
    (hint : intD ≠ []) (hd : intD.all Char.isDigit = true)
    (hf : frac.all Char.isDigit = true)
    (hfilter : core.filter (fun c => c != ',') =
      intD ++ (if frac.isEmpty then [] else '.' :: frac)) :
    to_float (.str (String.mk (ws1 ++ core ++ ws2))) =
      (digitsToNat intD : ℚ) + (digitsToNat frac : ℚ) / (10 : ℚ) ^ frac.length := by
  have hne : core ≠ [] := by
    intro h
    rw [h] at hfilter
    rcases List.append_eq_nil.mp hfilter.symm with ⟨h1, _⟩
    exact hint h1
  have hnws : ∀ c ∈ core, c.isWhitespace = false := fun c hc =>
    allowed_not_ws c (List.all_eq_true.mp hall c hc)
  have e1 : to_float (.str (String.mk (ws1 ++ core ++ ws2))) =
      (if ((pyStrip (ws1 ++ core ++ ws2)).filter (fun c => c != ',')).isEmpty then 0
       else (parsePyFloat
         ((pyStrip (ws1 ++ core ++ ws2)).filter (fun c => c != ','))).getD 0) := rfl
  rw [e1, pyStrip_sandwich ws1 ws2 core hws1 hws2 hnws hne, hfilter]
  obtain ⟨c, rest, rfl⟩ := List.exists_cons_of_ne_nil hint
  rw [List.cons_append]
  simp only [List.isEmpty_cons, Bool.false_eq_true, if_false]
  rw [← List.cons_append, parsePyFloat_num (c :: rest) frac (by simp) hd hf]
  rfl

theorem to_float_comma_numeral_witness :
    to_float (.str " 1,234.50 ") = 2469 / 2 := by
  have h := to_float_comma_numeral [' '] [' '] "1,234.50".toList "1234".toList
    "50".toList (by decide) (by decide) (by decide) (by decide) (by decide)
    (by decide) (by decide)
  have hs : (" 1,234.50 " : String) =
      String.mk ([' '] ++ "1,234.50".toList ++ [' ']) := by decide
  rw [hs, h, show digitsToNat "1234".toList = 1234 from rfl,
    show digitsToNat "50".toList = 50 from rfl,
    show ("50".toList).length = 2 from rfl]
  norm_num
